import Mathlib

/-!
Verification of `scripts/generate_icon.py` from the AIT42-Editor repository.

The script has two functions:
* `generate_icon_svg()` returns a fixed SVG document as a string;
* `main()` computes an output directory relative to the script location,
  creates it with `os.makedirs(..., exist_ok=True)`, writes the SVG to
  `icon.svg` inside it via `with open(path, 'w') as f: f.write(...)`, and
  prints follow-up instructions.

The SVG constant is embedded below line by line, byte-for-byte identical to
the triple-quoted literal in the source; `joinN` joins the lines with a
single newline character, exactly reconstructing the Python literal (which
has no trailing newline).  The filesystem-touching part of `main` is
embedded as a state-passing function over an explicit filesystem state `FS`.
-/

namespace IconGen

/-- The lines of the triple-quoted SVG literal in `generate_icon_svg`,
in source order. -/
def svgLines : List String := [
  "<?xml version=\"1.0\" encoding=\"UTF-8\"?>",
  "<svg width=\"1024\" height=\"1024\" viewBox=\"0 0 1024 1024\" xmlns=\"http://www.w3.org/2000/svg\">",
  "  <!-- Background gradient -->",
  "  <defs>",
  "    <linearGradient id=\"bgGrad\" x1=\"0%\" y1=\"0%\" x2=\"100%\" y2=\"100%\">",
  "      <stop offset=\"0%\" style=\"stop-color:#667eea;stop-opacity:1\" />",
  "      <stop offset=\"100%\" style=\"stop-color:#764ba2;stop-opacity:1\" />",
  "    </linearGradient>",
  "    <linearGradient id=\"iconGrad\" x1=\"0%\" y1=\"0%\" x2=\"100%\" y2=\"100%\">",
  "      <stop offset=\"0%\" style=\"stop-color:#fbbf24;stop-opacity:1\" />",
  "      <stop offset=\"100%\" style=\"stop-color:#f59e0b;stop-opacity:1\" />",
  "    </linearGradient>",
  "  </defs>",
  "",
  "  <!-- Background circle -->",
  "  <circle cx=\"512\" cy=\"512\" r=\"480\" fill=\"url(#bgGrad)\"/>",
  "",
  "  <!-- Code editor icon -->",
  "  <g transform=\"translate(512, 512)\">",
  "    <!-- Bracket symbols representing code -->",
  "    <path d=\"M -200,-200 L -150,-200 L -150,-150 M -200,200 L -150,200 L -150,150\"",
  "          stroke=\"url(#iconGrad)\" stroke-width=\"40\" fill=\"none\" stroke-linecap=\"round\"/>",
  "    <path d=\"M 200,-200 L 150,-200 L 150,-150 M 200,200 L 150,200 L 150,150\"",
  "          stroke=\"url(#iconGrad)\" stroke-width=\"40\" fill=\"none\" stroke-linecap=\"round\"/>",
  "",
  "    <!-- AI brain symbol in center -->",
  "    <circle cx=\"0\" cy=\"-80\" r=\"30\" fill=\"url(#iconGrad)\"/>",
  "    <circle cx=\"-60\" cy=\"0\" r=\"30\" fill=\"url(#iconGrad)\"/>",
  "    <circle cx=\"60\" cy=\"0\" r=\"30\" fill=\"url(#iconGrad)\"/>",
  "    <circle cx=\"0\" cy=\"80\" r=\"30\" fill=\"url(#iconGrad)\"/>",
  "",
  "    <!-- Connection lines -->",
  "    <line x1=\"0\" y1=\"-50\" x2=\"-42\" y2=\"-21\" stroke=\"url(#iconGrad)\" stroke-width=\"8\"/>",
  "    <line x1=\"0\" y1=\"-50\" x2=\"42\" y2=\"-21\" stroke=\"url(#iconGrad)\" stroke-width=\"8\"/>",
  "    <line x1=\"-42\" y1=\"21\" x2=\"0\" y2=\"50\" stroke=\"url(#iconGrad)\" stroke-width=\"8\"/>",
  "    <line x1=\"42\" y1=\"21\" x2=\"0\" y2=\"50\" stroke=\"url(#iconGrad)\" stroke-width=\"8\"/>",
  "    <line x1=\"-42\" y1=\"-21\" x2=\"-42\" y2=\"21\" stroke=\"url(#iconGrad)\" stroke-width=\"8\"/>",
  "    <line x1=\"42\" y1=\"-21\" x2=\"42\" y2=\"21\" stroke=\"url(#iconGrad)\" stroke-width=\"8\"/>",
  "  </g>",
  "</svg>"]

/-- Join a list of lines with a single newline character between consecutive
lines (and no trailing newline), at the level of character lists. -/
def joinN : List String → List Char
  | [] => []
  | [l] => l.data
  | l :: l2 :: ls => l.data ++ '\n' :: joinN (l2 :: ls)

/-- `generate_icon_svg()` from the source: returns the fixed SVG string.
The argument mirrors the Python function taking no inputs (a nullary call). -/
def generate_icon_svg (_ : Unit) : String :=
  ⟨joinN svgLines⟩

/-- Number of start positions in `s` at which `pat` occurs as a substring. -/
def countSub (pat : List Char) : List Char → Nat
  | [] => 0
  | c :: rest =>
    (if pat.isPrefixOf (c :: rest) then 1 else 0) + countSub pat rest

/-- The first line of a character sequence: everything before the first
newline character. -/
def firstLine (s : List Char) : List Char :=
  s.takeWhile (fun c => c ≠ '\n')

/-- Number of start tags of element `name` in `s`, counted as occurrences of
the substring `<name` followed by a space.  Every element in the generated
document carries at least one attribute, so each of its start tags has this
shape; the trailing space keeps a `<linearGradient` tag from being counted
as a `line` element. -/
def countTag (name : String) (s : List Char) : Nat :=
  countSub (("<" ++ name ++ " ").data) s

/-- The suffix of `s` that follows the first occurrence of `pat`
(empty if `pat` does not occur). -/
def afterFirst (pat : List Char) : List Char → List Char
  | [] => []
  | c :: rest =>
    if pat.isPrefixOf (c :: rest) then (c :: rest).drop pat.length
    else afterFirst pat rest

/-- The prefix of `s` that precedes the first occurrence of `pat`
(all of `s` if `pat` does not occur). -/
def beforeFirst (pat : List Char) : List Char → List Char
  | [] => []
  | c :: rest =>
    if pat.isPrefixOf (c :: rest) then []
    else c :: beforeFirst pat rest

/-- The content of the `<defs>` section of an SVG document: the characters
strictly between the first `<defs>` and the first following `</defs>`. -/
def defsSection (s : List Char) : List Char :=
  beforeFirst "</defs>".data (afterFirst "<defs>".data s)

/-- Scanner for gradient-reference integrity: at every position of `s` where
the substring `url(#` starts, the full reference is `url(#bgGrad)` or
`url(#iconGrad)`. -/
def refsOk : List Char → Bool
  | [] => true
  | c :: rest =>
    (!("url(#".data.isPrefixOf (c :: rest)) ||
      ("url(#bgGrad)".data.isPrefixOf (c :: rest) ||
       "url(#iconGrad)".data.isPrefixOf (c :: rest))) && refsOk rest

/-- A pattern that does not contain a newline matches at the start of
`xs ++ '\n' :: b` exactly when it matches at the start of `xs`. -/
lemma isPrefixOf_append_newline {pat : List Char} (h2 : '\n' ∉ pat) :
    ∀ (xs b : List Char), pat.isPrefixOf (xs ++ '\n' :: b) = pat.isPrefixOf xs := by
  induction pat with
  | nil => intro xs b; cases xs <;> simp [List.isPrefixOf]
  | cons p ps ih =>
    intro xs b
    cases xs with
    | nil =>
      have hp : p ≠ '\n' := fun h => h2 (h ▸ List.mem_cons_self p ps)
      simp [List.isPrefixOf, hp]
    | cons x xs2 =>
      have h2t : '\n' ∉ ps := fun h => h2 (List.mem_cons_of_mem p h)
      simp [List.isPrefixOf, ih h2t xs2 b]

/-- Occurrence counting for a nonempty pattern without newlines splits at a
newline character. -/
lemma countSub_append_newline {pat : List Char} (hne : pat ≠ [])
    (h2 : '\n' ∉ pat) :
    ∀ (a b : List Char),
      countSub pat (a ++ '\n' :: b) = countSub pat a + countSub pat b := by
  intro a b
  induction a with
  | nil =>
    have hfalse : pat.isPrefixOf ('\n' :: b) = false := by
      have := isPrefixOf_append_newline h2 [] b
      simp at this
      rw [this]
      cases pat with
      | nil => exact absurd rfl hne
      | cons p ps => simp [List.isPrefixOf]
    simp [countSub, hfalse]
  | cons c a2 ih =>
    have hpre : pat.isPrefixOf (c :: (a2 ++ '\n' :: b)) = pat.isPrefixOf (c :: a2) := by
      have := isPrefixOf_append_newline h2 (c :: a2) b
      simpa using this
    simp only [List.cons_append, countSub, List.append_eq, hpre, ih]
    omega

/-- Occurrence counting over the joined document is the sum of the per-line
counts, for a nonempty pattern without newlines. -/
lemma countSub_joinN {pat : List Char} (hne : pat ≠ []) (h2 : '\n' ∉ pat) :
    ∀ ls : List String,
      countSub pat (joinN ls) = (ls.map (fun l => countSub pat l.data)).sum
  | [] => by simp [joinN, countSub]
  | [l] => by simp [joinN]
  | l :: l2 :: ls => by
    have ih := countSub_joinN hne h2 (l2 :: ls)
    simp only [joinN, List.map_cons, List.sum_cons] at ih ⊢
    rw [countSub_append_newline hne h2, ih]

/-- The reference scanner splits at a newline character. -/
lemma refsOk_append_newline :
    ∀ (a b : List Char), refsOk (a ++ '\n' :: b) = (refsOk a && refsOk b) := by
  have h5 : ('\n' : Char) ∉ "url(#".data := by decide
  have h12 : ('\n' : Char) ∉ "url(#bgGrad)".data := by decide
  have h13 : ('\n' : Char) ∉ "url(#iconGrad)".data := by decide
  intro a b
  induction a with
  | nil =>
    have hu : "url(#".data.isPrefixOf ('\n' :: b) = false := by
      have := isPrefixOf_append_newline h5 [] b
      simp at this
      rw [this]
    simp [refsOk, hu]
  | cons c a2 ih =>
    have e5 := isPrefixOf_append_newline h5 (c :: a2) b
    have e12 := isPrefixOf_append_newline h12 (c :: a2) b
    have e13 := isPrefixOf_append_newline h13 (c :: a2) b
    simp only [List.cons_append] at e5 e12 e13 ⊢
    simp only [refsOk, List.append_eq, e5, e12, e13, ih, Bool.and_assoc]

/-- The reference scanner over the joined document holds exactly when it
holds on every line. -/
lemma refsOk_joinN :
    ∀ ls : List String, refsOk (joinN ls) = ls.all (fun l => refsOk l.data)
  | [] => by simp [joinN, refsOk]
  | [l] => by simp [joinN]
  | l :: l2 :: ls => by
    have ih := refsOk_joinN (l2 :: ls)
    simp only [joinN, List.all_cons] at ih ⊢
    rw [refsOk_append_newline, ih]

/-! ## Filesystem model for `main()` -/

/-- A filesystem path, as a list of components (the script joins components
with `os.path.join` and never normalizes them). -/
abbrev Path := List String

/-- The possible filesystem failures of the script: `os.makedirs` denied,
`open(..., 'w')` denied, or the write itself failing (e.g. disk full). -/
inductive OSErr where
  | mkdirDenied : Path → OSErr
  | openDenied : Path → OSErr
  | writeFailed : Path → OSErr
deriving DecidableEq

/-- Filesystem state.  `readOnly` models a read-only output location (both
directory creation and opening for write are denied); `writeFails` models an
I/O error raised by the write call itself.  `dirs` is the set of existing
directories, `files` maps a path to the content of the file stored there,
`openHandles` is the multiset of file handles currently open for writing,
and `stdout` collects printed lines. -/
structure FS where
  readOnly : Bool
  writeFails : Bool
  dirs : Path → Bool
  files : Path → Option String
  openHandles : List Path
  stdout : List String

/-- The nonempty prefixes of a path: the chain of directories that
`os.makedirs` ensures, outermost first. -/
def allPrefixes (p : Path) : List Path :=
  (List.range p.length).map (fun i => p.take (i + 1))

/-- `os.makedirs(p, exist_ok=True)`: creates every missing directory in the
chain of prefixes of `p`; succeeds without touching the filesystem when all
of them already exist (`exist_ok=True`), and fails when some directory must
be created but the filesystem is read-only. -/
def makedirs (fs : FS) (p : Path) : Except OSErr Unit × FS :=
  let missing := (allPrefixes p).filter (fun q => !(fs.dirs q))
  if missing.isEmpty then (.ok (), fs)
  else if fs.readOnly then (.error (.mkdirDenied p), fs)
  else (.ok (), { fs with dirs := fun q => fs.dirs q || missing.contains q })

/-- `open(p, 'w')`: fails on a read-only filesystem; otherwise truncates the
file at `p` to empty content and acquires a write handle. -/
def openW (fs : FS) (p : Path) : Except OSErr Unit × FS :=
  if fs.readOnly then (.error (.openDenied p), fs)
  else (.ok (),
    { fs with
      files := fun q => if q = p then some "" else fs.files q
      openHandles := p :: fs.openHandles })

/-- `f.write(s)` on the handle for `p`: appends `s` to the current content
of the (already truncated) file, or fails when the write error is injected. -/
def writeH (fs : FS) (p : Path) (s : String) : Except OSErr Unit × FS :=
  if fs.writeFails then (.error (.writeFailed p), fs)
  else (.ok (),
    { fs with
      files := fun q => if q = p then some (((fs.files p).getD "") ++ s) else fs.files q })

/-- Closing the handle for `p` (never fails). -/
def closeH (fs : FS) (p : Path) : FS :=
  { fs with openHandles := fs.openHandles.erase p }

/-- `with open(p, 'w') as f: f.write(s)`: the handle is acquired just before
the write and the `with` statement closes it on both the normal and the
exceptional exit of the block; an exception from the write is re-raised
after the close. -/
def withOpenWrite (fs : FS) (p : Path) (s : String) : Except OSErr Unit × FS :=
  match openW fs p with
  | (.error e, fs1) => (.error e, fs1)
  | (.ok _, fs1) =>
    match writeH fs1 p s with
    | (r2, fs2) => (r2, closeH fs2 p)

/-- Rendering of a path for the confirmation message (POSIX separator, as
`os.path.join` produces on the platforms the script targets). -/
def pathStr (p : Path) : String :=
  String.intercalate "/" p

/-- The lines printed by `main` after a successful write: the confirmation
message with the written path, followed by the fixed follow-up
instructions (each entry is the argument of one `print` call). -/
def printedLines (svgPathStr : String) : List String := [
  "✓ Generated SVG icon at: " ++ svgPathStr,
  "\nNext steps:",
  "1. Convert SVG to PNG using online tool or ImageMagick:",
  "   - Online: https://cloudconvert.com/svg-to-png",
  "   - Or install ImageMagick: brew install imagemagick",
  "   - Then run: convert -background none -size 1024x1024 icon.svg icon.png",
  "\n2. Generate Tauri icons:",
  "   npm run tauri icon src-tauri/icons/icon.png"]

/-- `os.path.join(os.path.dirname(__file__), '..', 'src-tauri', 'icons')`:
the fixed relative offset from the script's own directory. -/
def outputDir (scriptDir : Path) : Path :=
  scriptDir ++ ["..", "src-tauri", "icons"]

/-- `os.path.join(output_dir, 'icon.svg')`: the single output location. -/
def iconPath (scriptDir : Path) : Path :=
  outputDir scriptDir ++ ["icon.svg"]

/-- `main()` from the source: compute the output directory, ensure it
exists, generate the SVG, write it to `icon.svg` in the output directory,
then print the confirmation and the follow-up instructions.  No exception
is caught anywhere, so any filesystem error is returned unchanged. -/
def main (scriptDir : Path) (fs : FS) : Except OSErr Unit × FS :=
  let output_dir := outputDir scriptDir
  match makedirs fs output_dir with
  | (.error e, fs1) => (.error e, fs1)
  | (.ok _, fs1) =>
    let svg_content := generate_icon_svg ()
    let svg_path := output_dir ++ ["icon.svg"]
    match withOpenWrite fs1 svg_path svg_content with
    | (.error e, fs2) => (.error e, fs2)
    | (.ok _, fs2) =>
      (.ok (), { fs2 with stdout := fs2.stdout ++ printedLines (pathStr svg_path) })

/-- The process exit status: `0` when `main` returns normally, `1` when an
uncaught exception aborts the interpreter. -/
def exitCode : Except OSErr Unit → Nat
  | .ok _ => 0
  | .error _ => 1

/-- One invocation of the script (`if __name__ == '__main__': main()`):
the exit status together with the final filesystem state. -/
def runProcess (scriptDir : Path) (fs : FS) : Nat × FS :=
  let r := main scriptDir fs
  (exitCode r.1, r.2)

/-! ## Helper lemmas about the filesystem operations -/

lemma empty_append_str (s : String) : "" ++ s = s := rfl

lemma makedirs_preserves (fs : FS) (p : Path) :
    (makedirs fs p).2.readOnly = fs.readOnly ∧
    (makedirs fs p).2.writeFails = fs.writeFails ∧
    (makedirs fs p).2.files = fs.files ∧
    (makedirs fs p).2.openHandles = fs.openHandles ∧
    (makedirs fs p).2.stdout = fs.stdout := by
  simp only [makedirs]
  split
  · exact ⟨rfl, rfl, rfl, rfl, rfl⟩
  · split <;> exact ⟨rfl, rfl, rfl, rfl, rfl⟩

lemma makedirs_ok_of_not_readOnly (fs : FS) (p : Path) (h : fs.readOnly = false) :
    (makedirs fs p).1 = .ok () := by
  simp only [makedirs, h]
  split <;> simp

lemma makedirs_eq_of_all_exist (fs : FS) (p : Path)
    (h : ∀ q ∈ allPrefixes p, fs.dirs q = true) :
    makedirs fs p = (.ok (), fs) := by
  have hnil : (allPrefixes p).filter (fun q => !(fs.dirs q)) = [] := by
    refine List.filter_eq_nil_iff.mpr fun q hq => ?_
    simp [h q hq]
  simp [makedirs, hnil]

lemma makedirs_error_of_readOnly (fs : FS) (p : Path) (hro : fs.readOnly = true)
    (h : ∃ q ∈ allPrefixes p, fs.dirs q = false) :
    makedirs fs p = (.error (.mkdirDenied p), fs) := by
  obtain ⟨q, hq, hqf⟩ := h
  have hne : ((allPrefixes p).filter (fun r => !(fs.dirs r))).isEmpty = false := by
    rw [Bool.eq_false_iff]
    intro hempty
    have := List.filter_eq_nil_iff.mp (List.isEmpty_iff.mp hempty) q hq
    simp [hqf] at this
  simp [makedirs, hne, hro]

lemma makedirs_dirs (fs : FS) (p : Path) (h : fs.readOnly = false) :
    ∀ q ∈ allPrefixes p, (makedirs fs p).2.dirs q = true := by
  intro q hq
  simp only [makedirs]
  split
  · next hempty =>
    have := List.filter_eq_nil_iff.mp (List.isEmpty_iff.mp hempty) q hq
    simpa using this
  · next hempty =>
    simp only [h, Bool.false_eq_true, if_false]
    by_cases hd : fs.dirs q = true
    · simp [hd]
    · have hdf : fs.dirs q = false := by simpa using hd
      simp [hq, hdf]

lemma withOpenWrite_readOnly (fs : FS) (p : Path) (s : String)
    (h : fs.readOnly = true) :
    withOpenWrite fs p s = (.error (.openDenied p), fs) := by
  simp [withOpenWrite, openW, h]

lemma withOpenWrite_ok_parts (fs : FS) (p : Path) (s : String)
    (h1 : fs.readOnly = false) (h2 : fs.writeFails = false) :
    (withOpenWrite fs p s).1 = .ok () ∧
    (withOpenWrite fs p s).2.files p = some s ∧
    (∀ q, q ≠ p → (withOpenWrite fs p s).2.files q = fs.files q) ∧
    (withOpenWrite fs p s).2.openHandles = fs.openHandles ∧
    (withOpenWrite fs p s).2.readOnly = fs.readOnly ∧
    (withOpenWrite fs p s).2.writeFails = fs.writeFails ∧
    (withOpenWrite fs p s).2.dirs = fs.dirs ∧
    (withOpenWrite fs p s).2.stdout = fs.stdout := by
  simp only [withOpenWrite, openW, writeH, closeH, h1, h2, Bool.false_eq_true, if_false]
  refine ⟨by trivial, ?_, ?_, ?_, by trivial, by trivial, by trivial, by trivial⟩
  · simp [empty_append_str]
  · intro q hq
    simp [hq]
  · simp [List.erase_cons_head]

lemma withOpenWrite_writeFails_parts (fs : FS) (p : Path) (s : String)
    (h1 : fs.readOnly = false) (h2 : fs.writeFails = true) :
    (withOpenWrite fs p s).1 = .error (.writeFailed p) ∧
    (withOpenWrite fs p s).2.openHandles = fs.openHandles := by
  simp only [withOpenWrite, openW, writeH, closeH, h1, h2, Bool.false_eq_true, if_false,
    if_true]
  exact ⟨by trivial, by simp [List.erase_cons_head]⟩

lemma withOpenWrite_handles (fs : FS) (p : Path) (s : String) :
    (withOpenWrite fs p s).2.openHandles = fs.openHandles := by
  by_cases h1 : fs.readOnly = true
  · simp [withOpenWrite_readOnly fs p s h1]
  · rw [Bool.not_eq_true] at h1
    by_cases h2 : fs.writeFails = true
    · exact (withOpenWrite_writeFails_parts fs p s h1 h2).2
    · rw [Bool.not_eq_true] at h2
      exact (withOpenWrite_ok_parts fs p s h1 h2).2.2.2.1

lemma main_ok_parts (d : Path) (fs : FS)
    (h1 : fs.readOnly = false) (h2 : fs.writeFails = false) :
    (main d fs).1 = .ok () ∧
    (main d fs).2.files (iconPath d) = some (generate_icon_svg ()) ∧
    (∀ q, q ≠ iconPath d → (main d fs).2.files q = fs.files q) ∧
    (main d fs).2.readOnly = false ∧
    (main d fs).2.writeFails = false ∧
    (main d fs).2.openHandles = fs.openHandles := by
  have hm1 : (makedirs fs (outputDir d)).1 = Except.ok () :=
    makedirs_ok_of_not_readOnly fs _ h1
  have hpres := makedirs_preserves fs (outputDir d)
  rcases hE : makedirs fs (outputDir d) with ⟨r1, fs1⟩
  rw [hE] at hm1 hpres
  simp only at hm1
  subst hm1
  obtain ⟨hp1, hp2, hp3, hp4, hp5⟩ := hpres
  have h1a : fs1.readOnly = false := by rw [hp1, h1]
  have h2a : fs1.writeFails = false := by rw [hp2, h2]
  have hw := withOpenWrite_ok_parts fs1 (outputDir d ++ ["icon.svg"])
    (generate_icon_svg ()) h1a h2a
  rcases hW : withOpenWrite fs1 (outputDir d ++ ["icon.svg"]) (generate_icon_svg ())
    with ⟨r2, fs2⟩
  rw [hW] at hw
  obtain ⟨hw1, hw2, hw3, hw4, hw5, hw6, hw7, hw8⟩ := hw
  simp only at hw1
  subst hw1
  simp only [main, hE, hW, iconPath]
  refine ⟨by trivial, hw2, ?_, ?_, ?_, ?_⟩
  · intro q hq
    have hq2 : q ≠ outputDir d ++ ["icon.svg"] := by
      simpa [iconPath] using hq
    rw [hw3 q hq2, congrFun hp3 q]
  · rw [hw5, h1a]
  · rw [hw6, h2a]
  · rw [hw4, hp4]

lemma main_readOnly_missing (d : Path) (fs : FS) (h : fs.readOnly = true)
    (hmiss : ∃ q ∈ allPrefixes (outputDir d), fs.dirs q = false) :
    main d fs = (.error (.mkdirDenied (outputDir d)), fs) := by
  have hmd := makedirs_error_of_readOnly fs (outputDir d) h hmiss
  simp only [main, hmd]

lemma main_readOnly_all (d : Path) (fs : FS) (h : fs.readOnly = true)
    (hall : ∀ q ∈ allPrefixes (outputDir d), fs.dirs q = true) :
    main d fs = (.error (.openDenied (iconPath d)), fs) := by
  have hmd := makedirs_eq_of_all_exist fs (outputDir d) hall
  have hwo := withOpenWrite_readOnly fs (outputDir d ++ ["icon.svg"])
    (generate_icon_svg ()) h
  simp only [main, hmd, hwo, iconPath]

lemma main_readOnly (d : Path) (fs : FS) (h : fs.readOnly = true) :
    ∃ e, main d fs = (.error e, fs) := by
  by_cases hall : ∀ q ∈ allPrefixes (outputDir d), fs.dirs q = true
  · exact ⟨_, main_readOnly_all d fs h hall⟩
  · refine ⟨_, main_readOnly_missing d fs h ?_⟩
    push_neg at hall
    obtain ⟨q, hq, hqf⟩ := hall
    exact ⟨q, hq, by simpa using hqf⟩

lemma main_writeFails (d : Path) (fs : FS)
    (h1 : fs.readOnly = false) (h2 : fs.writeFails = true) :
    (main d fs).1 = .error (.writeFailed (iconPath d)) := by
  have hm1 : (makedirs fs (outputDir d)).1 = Except.ok () :=
    makedirs_ok_of_not_readOnly fs _ h1
  have hpres := makedirs_preserves fs (outputDir d)
  rcases hE : makedirs fs (outputDir d) with ⟨r1, fs1⟩
  rw [hE] at hm1 hpres
  simp only at hm1
  subst hm1
  obtain ⟨hp1, hp2, hp3, hp4, hp5⟩ := hpres
  have h1a : fs1.readOnly = false := by rw [hp1, h1]
  have h2a : fs1.writeFails = true := by rw [hp2, h2]
  have hw := withOpenWrite_writeFails_parts fs1 (outputDir d ++ ["icon.svg"])
    (generate_icon_svg ()) h1a h2a
  rcases hW : withOpenWrite fs1 (outputDir d ++ ["icon.svg"]) (generate_icon_svg ())
    with ⟨r2, fs2⟩
  rw [hW] at hw
  simp only at hw
  obtain ⟨hw1, hw4⟩ := hw
  subst hw1
  simp only [main, hE, hW, iconPath]

lemma main_handles (d : Path) (fs : FS) :
    (main d fs).2.openHandles = fs.openHandles := by
  by_cases h : fs.readOnly = true
  · obtain ⟨e, he⟩ := main_readOnly d fs h
    rw [he]
  · rw [Bool.not_eq_true] at h
    have hm1 : (makedirs fs (outputDir d)).1 = Except.ok () :=
      makedirs_ok_of_not_readOnly fs _ h
    have hpres := makedirs_preserves fs (outputDir d)
    have hwh := withOpenWrite_handles (makedirs fs (outputDir d)).2
      (outputDir d ++ ["icon.svg"]) (generate_icon_svg ())
    rcases hE : makedirs fs (outputDir d) with ⟨r1, fs1⟩
    rw [hE] at hm1 hpres hwh
    simp only at hm1
    subst hm1
    obtain ⟨hp1, hp2, hp3, hp4, hp5⟩ := hpres
    rcases hW : withOpenWrite fs1 (outputDir d ++ ["icon.svg"]) (generate_icon_svg ())
      with ⟨r2, fs2⟩
    rw [hW] at hwh
    simp only at hwh
    cases r2 with
    | error e => simp only [main, hE, hW]; rw [hwh, hp4]
    | ok u => simp only [main, hE, hW]; rw [hwh, hp4]

/-- Semantic reading of the scanner `refsOk`: wherever the document splits
as `u ++ "url(#" ++ v`, the reference continues with `bgGrad)` or
`iconGrad)`. -/
lemma refsOk_spec :
    ∀ u v : List Char, refsOk (u ++ "url(#".data ++ v) = true →
      "bgGrad)".data <+: v ∨ "iconGrad)".data <+: v := by
  intro u
  induction u with
  | nil =>
    intro v h
    rw [show ([] : List Char) ++ "url(#".data ++ v =
          'u' :: 'r' :: 'l' :: '(' :: '#' :: v from rfl] at h
    simp only [refsOk,
      show "url(#".data = ['u', 'r', 'l', '(', '#'] from rfl,
      show "url(#bgGrad)".data =
        ['u', 'r', 'l', '(', '#', 'b', 'g', 'G', 'r', 'a', 'd', ')'] from rfl,
      show "url(#iconGrad)".data =
        ['u', 'r', 'l', '(', '#', 'i', 'c', 'o', 'n', 'G', 'r', 'a', 'd', ')'] from rfl,
      List.isPrefixOf, Bool.and_eq_true, Bool.or_eq_true] at h
    simp only [show ('u' == 'u') = true from rfl, show ('r' == 'r') = true from rfl,
      show ('l' == 'l') = true from rfl, show ('(' == '(') = true from rfl,
      show ('#' == '#') = true from rfl, show ('u' == 'r') = false from rfl,
      show ('u' == 'l') = false from rfl, show ('u' == '(') = false from rfl,
      show ('u' == '#') = false from rfl, Bool.true_and, Bool.false_and,
      Bool.not_false, Bool.not_true, Bool.true_or, Bool.false_or,
      Bool.and_eq_true, Bool.or_eq_true] at h
    rcases h.1 with hfalse | hbg | hicon
    · exact absurd hfalse (by simp)
    · exact Or.inl (List.isPrefixOf_iff_prefix.mp
        (by rw [show "bgGrad)".data = ['b', 'g', 'G', 'r', 'a', 'd', ')'] from rfl]
            exact hbg.2.2.2.2.2))
    · exact Or.inr (List.isPrefixOf_iff_prefix.mp
        (by rw [show "iconGrad)".data =
                  ['i', 'c', 'o', 'n', 'G', 'r', 'a', 'd', ')'] from rfl]
            exact hicon.2.2.2.2.2))
  | cons x u2 ih =>
    intro v h
    rw [show (x :: u2) ++ "url(#".data ++ v =
          x :: (u2 ++ "url(#".data ++ v) from rfl] at h
    simp only [refsOk, Bool.and_eq_true] at h
    exact ih v h.2

/-- Any string with at least one occurrence of `pat` splits as the part
before the first occurrence, then `pat`, then the part after it. -/
lemma split_at_first (pat : List Char) :
    ∀ s : List Char, 0 < countSub pat s →
      s = beforeFirst pat s ++ pat ++ afterFirst pat s
  | [] => by simp [countSub]
  | c :: rest => by
    intro hcount
    by_cases hp : pat.isPrefixOf (c :: rest) = true
    · obtain ⟨t, ht⟩ := List.isPrefixOf_iff_prefix.mp hp
      simp only [beforeFirst, afterFirst, hp, if_true, List.nil_append]
      rw [← ht, List.drop_left]
    · have hrest : 0 < countSub pat rest := by
        simpa [countSub, hp] using hcount
      have ih := split_at_first pat rest hrest
      simp only [beforeFirst, afterFirst, hp, if_false, Bool.false_eq_true]
      rw [List.cons_append, List.cons_append]
      exact congrArg (List.cons c) ih

/-! ## Concrete states used by the witnesses -/

/-- A sample script directory. -/
def d0 : Path := ["scripts"]

/-- A writable filesystem with no directories and no files. -/
def fs0 : FS :=
  { readOnly := false, writeFails := false, dirs := fun _ => false,
    files := fun _ => none, openHandles := [], stdout := [] }

/-- A read-only filesystem with no directories. -/
def fsReadOnly : FS := { fs0 with readOnly := true }

/-- A writable filesystem on which every directory already exists. -/
def fsAllDirs : FS := { fs0 with dirs := fun _ => true }

/-- A read-only filesystem on which every directory already exists. -/
def fsReadOnlyAllDirs : FS := { fs0 with readOnly := true, dirs := fun _ => true }

/-- A writable filesystem whose write operation raises an I/O error. -/
def fsWriteFails : FS := { fs0 with writeFails := true }

/-! ## Claim theorems -/

set_option maxRecDepth 16000

/-- Claim C1: the generation operation `generate_icon_svg` takes no inputs,
cannot fail (it is a total function), and returns a fixed constant string:
any two calls return byte-identical strings. -/
theorem generate_icon_svg_deterministic :
    ∀ u v : Unit, generate_icon_svg u = generate_icon_svg v :=
  fun _ _ => rfl

/-- Claim C2: the SVG text has as its first line exactly
`<?xml version="1.0" encoding="UTF-8"?>`, contains the literal substrings
`id="bgGrad"` and `id="iconGrad"`, and contains exactly 5 `circle` start
tags, 2 `path` start tags and 6 `line` start tags (start tags counted as
`<name` followed by a space, the shape of every start tag of the document;
in particular the two `<linearGradient` tags are not counted as `line`). -/
theorem svg_document_structure :
    firstLine (generate_icon_svg ()).data =
      "<?xml version=\"1.0\" encoding=\"UTF-8\"?>".data ∧
    0 < countSub "id=\"bgGrad\"".data (generate_icon_svg ()).data ∧
    0 < countSub "id=\"iconGrad\"".data (generate_icon_svg ()).data ∧
    countTag "circle" (generate_icon_svg ()).data = 5 ∧
    countTag "path" (generate_icon_svg ()).data = 2 ∧
    countTag "line" (generate_icon_svg ()).data = 6 := by
  have hdoc : (generate_icon_svg ()).data = joinN svgLines := rfl
  refine ⟨by decide, ?_, ?_, ?_, ?_, ?_⟩
  · rw [hdoc, countSub_joinN (by decide) (by decide)]
    decide
  · rw [hdoc, countSub_joinN (by decide) (by decide)]
    decide
  · rw [countTag, hdoc, countSub_joinN (by decide) (by decide)]
    decide
  · rw [countTag, hdoc, countSub_joinN (by decide) (by decide)]
    decide
  · rw [countTag, hdoc, countSub_joinN (by decide) (by decide)]
    decide

/-- Claim C3: when the run succeeds, the program writes the SVG to exactly
one output location, the file `icon.svg` inside
`<script dir>/../src-tauri/icons`: that file holds the generated SVG and
every other path is untouched. -/
theorem run_writes_single_location (d : Path) (fs : FS)
    (h1 : fs.readOnly = false) (h2 : fs.writeFails = false) :
    (runProcess d fs).1 = 0 ∧
    (runProcess d fs).2.files (iconPath d) = some (generate_icon_svg ()) ∧
    ∀ q, q ≠ iconPath d → (runProcess d fs).2.files q = fs.files q := by
  obtain ⟨ha, hb, hc, -, -, -⟩ := main_ok_parts d fs h1 h2
  exact ⟨by simp [runProcess, ha, exitCode], hb, hc⟩

/-- Witness for C3 at a concrete writable empty filesystem. -/
theorem run_writes_single_location_witness :
    fs0.readOnly = false ∧ fs0.writeFails = false ∧
    (runProcess d0 fs0).1 = 0 ∧
    (runProcess d0 fs0).2.files (iconPath d0) = some (generate_icon_svg ()) :=
  ⟨rfl, rfl, (run_writes_single_location d0 fs0 rfl rfl).1,
    (run_writes_single_location d0 fs0 rfl rfl).2.1⟩

/-- Claim C4: running the program twice against the same writable output
location succeeds both times, and the file content after the second run is
byte-identical to the content after the first (the write truncates, so the
second run overwrites rather than appends or fails). -/
theorem run_twice_overwrite_idempotent (d : Path) (fs : FS)
    (h1 : fs.readOnly = false) (h2 : fs.writeFails = false) :
    (runProcess d fs).1 = 0 ∧
    (runProcess d ((runProcess d fs).2)).1 = 0 ∧
    (runProcess d ((runProcess d fs).2)).2.files (iconPath d) =
      (runProcess d fs).2.files (iconPath d) := by
  obtain ⟨ha, hb, -, hro, hwf, -⟩ := main_ok_parts d fs h1 h2
  obtain ⟨ha2, hb2, -, -, -, -⟩ := main_ok_parts d (main d fs).2 hro hwf
  exact ⟨by simp [runProcess, ha, exitCode],
    by simp [runProcess, ha2, exitCode],
    hb2.trans hb.symm⟩

/-- Witness for C4 at a concrete writable empty filesystem. -/
theorem run_twice_overwrite_idempotent_witness :
    fs0.readOnly = false ∧ fs0.writeFails = false ∧
    (runProcess d0 fs0).1 = 0 ∧
    (runProcess d0 ((runProcess d0 fs0).2)).1 = 0 ∧
    (runProcess d0 ((runProcess d0 fs0).2)).2.files (iconPath d0) =
      (runProcess d0 fs0).2.files (iconPath d0) :=
  ⟨rfl, rfl, (run_twice_overwrite_idempotent d0 fs0 rfl rfl).1,
    (run_twice_overwrite_idempotent d0 fs0 rfl rfl).2.1,
    (run_twice_overwrite_idempotent d0 fs0 rfl rfl).2.2⟩

/-- Claim C5: directory creation is recursive and idempotent: on a writable
filesystem `makedirs` succeeds and afterwards every directory in the chain
of prefixes exists; if the whole chain already exists the call returns
without error and without touching the state (`exist_ok=True`), and the run
then proceeds to the write (`main` completes normally). -/
theorem makedirs_recursive_idempotent (d p : Path) (fs : FS) :
    (fs.readOnly = false → (makedirs fs p).1 = .ok () ∧
      ∀ q ∈ allPrefixes p, (makedirs fs p).2.dirs q = true) ∧
    ((∀ q ∈ allPrefixes p, fs.dirs q = true) → makedirs fs p = (.ok (), fs)) ∧
    ((∀ q ∈ allPrefixes (outputDir d), fs.dirs q = true) → fs.readOnly = false →
      fs.writeFails = false → (main d fs).1 = .ok ()) :=
  ⟨fun h => ⟨makedirs_ok_of_not_readOnly fs p h, makedirs_dirs fs p h⟩,
   fun h => makedirs_eq_of_all_exist fs p h,
   fun _ h1 h2 => (main_ok_parts d fs h1 h2).1⟩

/-- Witness for C5 at concrete filesystems: a writable one with no
directories, and one where the whole chain already exists. -/
theorem makedirs_recursive_idempotent_witness :
    (fs0.readOnly = false ∧ (makedirs fs0 (outputDir d0)).1 = .ok ()) ∧
    ((∀ q ∈ allPrefixes (outputDir d0), fsAllDirs.dirs q = true) ∧
      makedirs fsAllDirs (outputDir d0) = (.ok (), fsAllDirs)) ∧
    (fsAllDirs.readOnly = false ∧ fsAllDirs.writeFails = false ∧
      (main d0 fsAllDirs).1 = .ok ()) :=
  ⟨⟨rfl, ((makedirs_recursive_idempotent d0 (outputDir d0) fs0).1 rfl).1⟩,
   ⟨fun _ _ => rfl,
    (makedirs_recursive_idempotent d0 (outputDir d0) fsAllDirs).2.1 (fun _ _ => rfl)⟩,
   ⟨rfl, rfl,
    (makedirs_recursive_idempotent d0 (outputDir d0) fsAllDirs).2.2
      (fun _ _ => rfl) rfl rfl⟩⟩

/-- Claim C6: filesystem errors are neither caught, wrapped nor retried:
each failing operation's error is returned from `main` unchanged and the
process exits with status 1; a run with no filesystem error exits with
status 0. -/
theorem error_propagation_exit_status (d : Path) (fs : FS) :
    (fs.readOnly = false → fs.writeFails = false → (runProcess d fs).1 = 0) ∧
    (fs.readOnly = true → (∃ q ∈ allPrefixes (outputDir d), fs.dirs q = false) →
      main d fs = (.error (.mkdirDenied (outputDir d)), fs) ∧
        (runProcess d fs).1 = 1) ∧
    (fs.readOnly = true → (∀ q ∈ allPrefixes (outputDir d), fs.dirs q = true) →
      main d fs = (.error (.openDenied (iconPath d)), fs) ∧
        (runProcess d fs).1 = 1) ∧
    (fs.readOnly = false → fs.writeFails = true →
      (main d fs).1 = .error (.writeFailed (iconPath d)) ∧
        (runProcess d fs).1 = 1) := by
  refine ⟨fun h1 h2 => ?_, fun h hmiss => ?_, fun h hall => ?_, fun h1 h2 => ?_⟩
  · simp [runProcess, (main_ok_parts d fs h1 h2).1, exitCode]
  · have he := main_readOnly_missing d fs h hmiss
    exact ⟨he, by simp [runProcess, he, exitCode]⟩
  · have he := main_readOnly_all d fs h hall
    exact ⟨he, by simp [runProcess, he, exitCode]⟩
  · have he := main_writeFails d fs h1 h2
    exact ⟨he, by simp [runProcess, he, exitCode]⟩

/-- Witness for C6 at concrete filesystems exercising all four cases:
clean run, read-only with a missing directory, read-only with all
directories present, and an injected write error. -/
theorem error_propagation_exit_status_witness :
    (runProcess d0 fs0).1 = 0 ∧
    (main d0 fsReadOnly = (.error (.mkdirDenied (outputDir d0)), fsReadOnly) ∧
      (runProcess d0 fsReadOnly).1 = 1) ∧
    (main d0 fsReadOnlyAllDirs =
        (.error (.openDenied (iconPath d0)), fsReadOnlyAllDirs) ∧
      (runProcess d0 fsReadOnlyAllDirs).1 = 1) ∧
    ((main d0 fsWriteFails).1 = .error (.writeFailed (iconPath d0)) ∧
      (runProcess d0 fsWriteFails).1 = 1) :=
  ⟨(error_propagation_exit_status d0 fs0).1 rfl rfl,
   (error_propagation_exit_status d0 fsReadOnly).2.1 rfl
     ⟨["scripts"], by decide, rfl⟩,
   (error_propagation_exit_status d0 fsReadOnlyAllDirs).2.2.1 rfl (fun _ _ => rfl),
   (error_propagation_exit_status d0 fsWriteFails).2.2.2 rfl rfl⟩

/-- Claim C7: on a read-only output location the run exits with a non-zero
status and leaves the file map of the filesystem exactly as it was: no
partial (truncated-but-unflushed) file distinguishable from the file being
absent. -/
theorem readonly_no_partial_file (d : Path) (fs : FS)
    (h : fs.readOnly = true) :
    (runProcess d fs).1 = 1 ∧ (runProcess d fs).2.files = fs.files := by
  obtain ⟨e, he⟩ := main_readOnly d fs h
  exact ⟨by simp [runProcess, he, exitCode], by simp [runProcess, he]⟩

/-- Witness for C7 at a concrete read-only filesystem. -/
theorem readonly_no_partial_file_witness :
    fsReadOnly.readOnly = true ∧
    (runProcess d0 fsReadOnly).1 = 1 ∧
    (runProcess d0 fsReadOnly).2.files = fsReadOnly.files :=
  ⟨rfl, (readonly_no_partial_file d0 fsReadOnly rfl).1,
    (readonly_no_partial_file d0 fsReadOnly rfl).2⟩

/-- Claim C8: the file handle is scoped: the write block releases it on
every exit path (successful write or raised write error), and a whole run
never leaks a handle — the set of open handles after `withOpenWrite` and
after `main` equals the set before, on all paths. -/
theorem file_handle_released (d : Path) (fs : FS) (p : Path) (s : String) :
    (withOpenWrite fs p s).2.openHandles = fs.openHandles ∧
    (main d fs).2.openHandles = fs.openHandles :=
  ⟨withOpenWrite_handles fs p s, main_handles d fs⟩

/-- Claim C9: after a successful run the content of the written `icon.svg`
is byte-for-byte the string returned by `generate_icon_svg()` — no
transformation, no trailing newline, nothing else written to the file. -/
theorem written_file_matches_generator (d : Path) (fs : FS)
    (h1 : fs.readOnly = false) (h2 : fs.writeFails = false) :
    (runProcess d fs).2.files (iconPath d) = some (generate_icon_svg ()) :=
  (main_ok_parts d fs h1 h2).2.1

/-- Witness for C9 at a concrete writable empty filesystem. -/
theorem written_file_matches_generator_witness :
    fs0.readOnly = false ∧ fs0.writeFails = false ∧
    (runProcess d0 fs0).2.files (iconPath d0) = some (generate_icon_svg ()) :=
  ⟨rfl, rfl, written_file_matches_generator d0 fs0 rfl rfl⟩

/-- Claim C10: referential integrity of the generated document: wherever
the substring `url(#` occurs in the SVG string (these are exactly the
gradient references of the `fill`/`stroke` attributes), it continues as
`url(#bgGrad)` or `url(#iconGrad)`, and both gradient ids are defined by
`<linearGradient>` elements inside the `<defs>` section. -/
theorem gradient_refs_defined :
    (∀ u v : List Char,
      (generate_icon_svg ()).data = u ++ "url(#".data ++ v →
      "bgGrad)".data <+: v ∨ "iconGrad)".data <+: v) ∧
    0 < countSub "<linearGradient id=\"bgGrad\"".data
      (defsSection (generate_icon_svg ()).data) ∧
    0 < countSub "<linearGradient id=\"iconGrad\"".data
      (defsSection (generate_icon_svg ()).data) := by
  refine ⟨?_, by decide, by decide⟩
  intro u v huv
  refine refsOk_spec u v ?_
  rw [← huv]
  rw [show (generate_icon_svg ()).data = joinN svgLines from rfl, refsOk_joinN]
  decide

/-- Witness for C10: the document does split around an occurrence of
`url(#` (the first one), and the theorem names its continuation. -/
theorem gradient_refs_defined_witness :
    "bgGrad)".data <+: afterFirst "url(#".data (generate_icon_svg ()).data ∨
    "iconGrad)".data <+: afterFirst "url(#".data (generate_icon_svg ()).data := by
  have hsplit : (generate_icon_svg ()).data =
      beforeFirst "url(#".data (generate_icon_svg ()).data ++ "url(#".data ++
        afterFirst "url(#".data (generate_icon_svg ()).data := by
    apply split_at_first
    rw [show (generate_icon_svg ()).data = joinN svgLines from rfl,
      countSub_joinN (by decide) (by decide)]
    decide
  exact gradient_refs_defined.1 _ _ hsplit

end IconGen
